import Mathlib

/-!
Shallow embedding of `keypoints2coco.py` and `utils.py` from the
cvat-to-coco repository: a converter from CVAT XML keypoint annotations to
the COCO keypoints JSON format.

Modelling conventions:
* Python floats (produced by `float(...)` on attribute strings and by the
  `eval` of a points string) are modelled as `Rat`; the claims under study
  concern only order comparisons and exact copies of these values.
* A keypoint's `points` attribute string is consumed only through
  `eval('(' + s + ')')` followed by projections `p[0]`, `p[1]`; we model the
  outcome of that parse as an `Option (Rat × Rat)`, where `none` stands for a
  string on which `eval` raises.
* Python exceptions escaping a function are modelled with `Except String`,
  the string naming the Python exception class.
* Python dicts keyed by the integer image id are modelled as association
  lists `List (Int × _)` in insertion order, with `dict_set` reproducing
  dict assignment (overwrite in place, append new keys at the end).
-/

set_option maxHeartbeats 1000000
set_option linter.unusedVariables false

namespace CvatCoco

/-- Line 19 of keypoints2coco.py: `VALID_CLASS_NAME = ['Forklift']`. -/
def VALID_CLASS_NAME : List String := ["Forklift"]

/-- Line 20 of keypoints2coco.py: `FORKLIFT_CATEGORY_ID = 1`. -/
def FORKLIFT_CATEGORY_ID : Nat := 1

/-- Lines 130-133 of keypoints2coco.py: the fixed ten keypoint names. -/
def keypoint_labels : List String :=
  ["LFrontWheel", "RFrontWheel", "LBackWheel", "RBackWheel",
   "LBlade", "RBlade",
   "LFrontRoof", "RFrontRoof", "LBackRoof", "RBackRoof"]

/-- Attributes of a `<box>` element as consumed by the builder
(lines 185-189): the label string and the four corner coordinates already
taken through `float(...)`. -/
structure BoxAttrib where
  label : String
  xtl : Rat
  ytl : Rat
  xbr : Rat
  ybr : Rat
deriving DecidableEq, Repr

/-- Attributes of a `<points>` element as consumed by the builder
(lines 199-202): label, the raw `occluded` string, and the result of
`eval('(' + points + ')')` (`none` when `eval` raises on a malformed
string). -/
structure KeypointAttrib where
  label : String
  occluded : String
  points : Option (Rat × Rat)
deriving DecidableEq, Repr

/-- Attributes of an `<image>` element as consumed by the builder
(lines 152-157): the `name`, `width` and `height` attribute strings,
copied verbatim. -/
structure ImageAttrib where
  name : String
  width : String
  height : String
deriving DecidableEq, Repr

/-- The per-image annotation record built at lines 82-90:
`{'bboxes': [...], 'keypoints': [...]}`. -/
structure ImageAnnotations where
  bboxes : List BoxAttrib
  keypoints : List KeypointAttrib
deriving DecidableEq, Repr

/-- A COCO category record (lines 137-142). -/
structure CocoCategory where
  id : Nat
  name : String
  keypoints : List String
  skeleton : List (Nat × Nat)
deriving DecidableEq, Repr

/-- A COCO image record (lines 152-157). -/
structure CocoImage where
  file_name : String
  height : String
  width : String
  id : Int
deriving DecidableEq, Repr

/-- A COCO annotation record (lines 174-184), field for field. -/
structure CocoAnnot where
  segmentation : List (List Rat)
  num_keypoints : Nat
  area : Rat
  iscrowd : Nat
  keypoints : List Rat
  image_id : Int
  bbox : List Rat
  category_id : Nat
  id : Nat
deriving DecidableEq, Repr

/-- The COCO document (lines 113-126) restricted to the data-bearing
fields; the `info` block (current date, stock strings) is fixed metadata
not derived from the input and is not modelled. -/
structure Coco where
  categories : List CocoCategory
  licenses : String
  images : List CocoImage
  annotations : List CocoAnnot
deriving DecidableEq, Repr

/-- Lines 215-221 of keypoints2coco.py: `is_inside_box(point, box)` where
`box` is the list `[x1, y1, x2, y2]`, here a 4-tuple. Inclusive
comparisons on all four edges. -/
def is_inside_box (point : Rat × Rat) (box : Rat × Rat × Rat × Rat) : Bool :=
  decide (point.1 ≥ box.1 ∧ point.1 ≤ box.2.2.1 ∧
          point.2 ≥ box.2.1 ∧ point.2 ≤ box.2.2.2)

/-- Python `list.index` returning `none` instead of raising `ValueError`:
index of the first occurrence of `x` in `l`. -/
def list_index (l : List String) (x : String) : Option Nat :=
  match l with
  | [] => none
  | y :: ys => if y = x then some 0 else (list_index ys x).map (· + 1)

/-- Python slice assignment `l[k:k+3] = [x, y, v]` (line 206). -/
def write3 (l : List Rat) (k : Nat) (x y v : Rat) : List Rat :=
  l.take k ++ [x, y, v] ++ l.drop (k + 3)

/-- The triple stored in slot `j` of a flattened keypoint array:
entries `3*j`, `3*j+1`, `3*j+2`. -/
def slot (arr : List Rat) (j : Nat) : Rat × Rat × Rat :=
  (arr.getD (3 * j) 0, arr.getD (3 * j + 1) 0, arr.getD (3 * j + 2) 0)

/-- Lines 198-206 of keypoints2coco.py, the body of the inner keypoint
loop for one box: read the label, derive visibility from the `occluded`
string, `eval` the points string (raising on a malformed one), look the
label up in `keypoint_labels` (`.index` raising `ValueError` when absent),
and write `[x, y, visibility]` into the slot when the point is inside the
box. Both the `eval` and the `.index` lookup happen before the
containment test, exactly as in the source. -/
def process_keypoint (rect : Rat × Rat × Rat × Rat) (arr : List Rat)
    (kp : KeypointAttrib) : Except String (List Rat) :=
  let p_visibility : Rat := if kp.occluded = "1" then 1 else 2
  match kp.points with
  | none => .error "SyntaxError"
  | some p =>
    match list_index keypoint_labels kp.label with
    | none => .error "ValueError"
    | some i =>
      if is_inside_box p rect then
        .ok (write3 arr (i * 3) p.1 p.2 p_visibility)
      else
        .ok arr

/-- The keypoint loop of lines 197-206, threading the mutable `keypoints`
array through `process_keypoint`. -/
def fill_from (rect : Rat × Rat × Rat × Rat) (arr : List Rat) :
    List KeypointAttrib → Except String (List Rat)
  | [] => .ok arr
  | kp :: rest =>
    match process_keypoint rect arr kp with
    | .error e => .error e
    | .ok arr2 => fill_from rect arr2 rest

/-- Lines 194-206: the keypoint array for one box, starting from the
all-zero array `[0] * 30`. -/
def fill_keypoints (rect : Rat × Rat × Rat × Rat)
    (kps : List KeypointAttrib) : Except String (List Rat) :=
  fill_from rect (List.replicate 30 0) kps

/-- Lines 173-208: build the COCO annotation for one box. `ann_id` is the
value of `annotation_index` after the increment at line 173. The box
label is read at line 185 but never used afterwards. -/
def make_coco_box (idx : Int) (ann_id : Nat) (b : BoxAttrib)
    (kps : List KeypointAttrib) : Except String CocoAnnot :=
  match fill_keypoints (b.xtl, b.ytl, b.xbr, b.ybr) kps with
  | .error e => .error e
  | .ok keypoints =>
    .ok { segmentation := []
          num_keypoints := 10
          area := 0
          iscrowd := 0
          keypoints := keypoints
          image_id := idx
          bbox := [b.xtl, b.ytl, b.xbr - b.xtl, b.ybr - b.ytl]
          category_id := FORKLIFT_CATEGORY_ID
          id := ann_id }

/-- Lines 171-209: the box loop for one image. `n` is the value of
`annotation_index` before the loop; returns the annotations in order
together with the final `annotation_index`. -/
def build_boxes (idx : Int) (kps : List KeypointAttrib) (n : Nat) :
    List BoxAttrib → Except String (List CocoAnnot × Nat)
  | [] => .ok ([], n)
  | b :: bs =>
    match make_coco_box idx (n + 1) b kps with
    | .error e => .error e
    | .ok a =>
      match build_boxes idx kps (n + 1) bs with
      | .error e => .error e
      | .ok (rest, n2) => .ok (a :: rest, n2)

/-- Lines 169-211: the image loop. Iterates `images.keys()` in order,
looks the image id up in the annotations dict (a `KeyError` when absent),
and concatenates the per-image annotation lists. -/
def build_image_annots (annotations : List (Int × ImageAnnotations))
    (n : Nat) :
    List (Int × ImageAttrib) → Except String (List CocoAnnot × Nat)
  | [] => .ok ([], n)
  | (idx, _) :: rest =>
    match annotations.lookup idx with
    | none => .error "KeyError"
    | some ann =>
      match build_boxes idx ann.keypoints n ann.bboxes with
      | .error e => .error e
      | .ok (here, n2) =>
        match build_image_annots annotations n2 rest with
        | .error e => .error e
        | .ok (more, n3) => .ok (here ++ more, n3)

/-- Lines 129-144: `for i, cat in enumerate(labels): if cat not in
VALID_CLASS_NAME: continue; append {...}`, with `i` starting from the
given offset. -/
def coco_categories_from (i : Nat) : List String → List CocoCategory
  | [] => []
  | cat :: rest =>
    if cat ∈ VALID_CLASS_NAME then
      { id := i, name := cat, keypoints := keypoint_labels,
        skeleton := [] } :: coco_categories_from (i + 1) rest
    else
      coco_categories_from (i + 1) rest

/-- The category list of lines 129-144 for a label vocabulary. -/
def coco_categories_of (labels : List String) : List CocoCategory :=
  coco_categories_from 0 labels

/-- Lines 147-159: one COCO image record per entry of the image dict, in
key-insertion order; `name`, `height`, `width` copied verbatim as strings
and the integer id kept (`int(idx)` on an int is the identity). -/
def coco_images_of (images : List (Int × ImageAttrib)) : List CocoImage :=
  images.map fun p =>
    { file_name := p.2.name, height := p.2.height, width := p.2.width,
      id := p.1 }

/-- Lines 97-213: `construct_coco_keypoints(dataset_name, labels, images,
annotations)`. The `dataset_name` argument is accepted but unused, as in
the source. `licenses` is the empty string (line 123). -/
def construct_coco_keypoints (dataset_name : String) (labels : List String)
    (images : List (Int × ImageAttrib))
    (annotations : List (Int × ImageAnnotations)) : Except String Coco :=
  match build_image_annots annotations 0 images with
  | .error e => .error e
  | .ok (anns, _) =>
    .ok { categories := coco_categories_of labels
          licenses := ""
          images := coco_images_of images
          annotations := anns }

/-- A parsed XML element tree (the output of `ET.parse(...).getroot()` at
lines 54-55): tag, attribute dict in document order, text content
(Python's `None` text modelled as the empty string), and child elements in
document order. Malformed-XML parse failures of `ET.parse` itself are
outside this model, which starts from the parsed tree. -/
inductive Xml where
  | elem (tag : String) (attribs : List (String × String)) (text : String)
      (children : List Xml)
deriving Repr

/-- Tag of an element. -/
def Xml.tag : Xml → String
  | .elem t _ _ _ => t

/-- Attribute dict of an element. -/
def Xml.attribs : Xml → List (String × String)
  | .elem _ a _ _ => a

/-- Text content of an element. -/
def Xml.text : Xml → String
  | .elem _ _ t _ => t

/-- Direct children of an element. -/
def Xml.children : Xml → List Xml
  | .elem _ _ _ c => c

mutual

/-- All proper descendants of an element in document (preorder) order, as
traversed by ElementTree's `.//` selector. -/
def xml_descendants : Xml → List Xml
  | .elem _ _ _ cs => xml_desc_list cs

/-- Descendant-or-self lists for a forest, in document order. -/
def xml_desc_list : List Xml → List Xml
  | [] => []
  | c :: cs => c :: (xml_descendants c ++ xml_desc_list cs)

end

/-- ElementTree `root.findall('.//tag')`: all descendants with the tag, in
document order. -/
def xml_findall (tag : String) (root : Xml) : List Xml :=
  (xml_descendants root).filter fun e => e.tag == tag

/-- ElementTree `root.find('.//tag')`: the first descendant with the tag,
if any. -/
def xml_find (tag : String) (root : Xml) : Option Xml :=
  (xml_findall tag root).head?

/-- Python dict assignment `d[k] = v` on an insertion-ordered dict:
overwrite in place when the key exists, else append. -/
def dict_set {α : Type} (d : List (Int × α)) (k : Int) (v : α) :
    List (Int × α) :=
  if (d.lookup k).isSome then
    d.map fun p => if p.1 = k then (k, v) else p
  else
    d ++ [(k, v)]

/-- The per-image annotation record of lines 82-90 with the attribute
dicts kept verbatim, exactly as `parse_xml_file` stores them. -/
structure RawAnns where
  bboxes : List (List (String × String))
  keypoints : List (List (String × String))
deriving Repr

/-- What `parse_xml_file` returns: the bare empty dict `{}` on the
missing-file path (line 52), or the `(labels, images, annotations)` triple
of line 95. -/
inductive ParseResult where
  | empty
  | triple (labels : List String)
      (images : List (Int × List (String × String)))
      (annotations : List (Int × RawAnns))

/-- Whether a `ParseResult` is the normal three-part return value. -/
def ParseResult.isTriple : ParseResult → Bool
  | .empty => false
  | .triple _ _ _ => true

/-- Lines 71-90: the loop over `root.findall('.//image')`, threading the
`images` and `annotations` dicts. `int(image_attrib['id'])` raises
`KeyError` when the attribute is missing and `ValueError` when it is not
integer-parseable; direct children tagged `box` and `points` contribute
their attribute dicts. -/
def parse_images :
    List Xml → List (Int × List (String × String)) → List (Int × RawAnns) →
    Except String (List (Int × List (String × String)) × List (Int × RawAnns))
  | [], imgs, anns => .ok (imgs, anns)
  | el :: rest, imgs, anns =>
    match el.attribs.lookup "id" with
    | none => .error "KeyError"
    | some idStr =>
      match idStr.toInt? with
      | none => .error "ValueError"
      | some idv =>
        let ann : RawAnns :=
          { bboxes := (el.children.filter fun c => c.tag == "box").map
              Xml.attribs
            keypoints := (el.children.filter fun c => c.tag == "points").map
              Xml.attribs }
        parse_images rest (dict_set imgs idv el.attribs)
          (dict_set anns idv ann)

/-- Lines 38-95: `parse_xml_file(xml_path)`. The first component is the
list of error-level log messages emitted (line 51); the second is the
returned value, with Python exceptions escaping the function modelled as
`Except.error`. When the input path is not a regular file the function
logs `No file found at <path>` and returns the bare `{}` — it does not
raise. Otherwise it collects label names (lines 58-63: children of the
first `labels` descendant, each contributing the text of its first `name`
descendant, entries without one skipped; iterating a missing `labels`
element raises `TypeError`) and the image/annotation dicts. -/
def parse_xml_file (xml_path : String) (file_exists : Bool) (root : Xml) :
    List String × Except String ParseResult :=
  if !file_exists then
    (["No file found at " ++ xml_path], .ok .empty)
  else
    ([],
      match xml_find "labels" root with
      | none => .error "TypeError"
      | some labelsEl =>
        let labels := labelsEl.children.filterMap fun label =>
          (xml_find "name" label).map Xml.text
        match parse_images (xml_findall "image" root) [] [] with
        | .error e => .error e
        | .ok (imgs, anns) => .ok (.triple labels imgs anns))

/-- A sample image attribute record used to exercise the builder. -/
def exImage : ImageAttrib :=
  { name := "frame_000001.png", width := "1920", height := "1080" }

/-- A sample box with rectangle (0, 0)-(10, 10). -/
def exBox : BoxAttrib :=
  { label := "Forklift", xtl := 0, ytl := 0, xbr := 10, ybr := 10 }

/-- A second sample box with rectangle (3, 3)-(8, 8), overlapping `exBox`. -/
def exBoxB : BoxAttrib :=
  { label := "Forklift", xtl := 3, ytl := 3, xbr := 8, ybr := 8 }

/-- A visible LFrontWheel keypoint at (5, 5). -/
def exKp1 : KeypointAttrib :=
  { label := "LFrontWheel", occluded := "0", points := some (5, 5) }

/-- A visible RBackWheel keypoint at (50, 50), outside `exBox`. -/
def exKp2 : KeypointAttrib :=
  { label := "RBackWheel", occluded := "0", points := some (50, 50) }

/-- A keypoint whose label is not one of the ten recognized names, at a
point outside `exBox`. -/
def exKpUnknown : KeypointAttrib :=
  { label := "Unknown", occluded := "0", points := some (50, 50) }

/-- Sample per-image annotation input: one box, two keypoints. -/
def exAnns : List (Int × ImageAnnotations) :=
  [(0, { bboxes := [exBox], keypoints := [exKp1, exKp2] })]

/-- Sample input whose only keypoint has an unrecognized label and lies
inside no box. -/
def exAnnsBad : List (Int × ImageAnnotations) :=
  [(0, { bboxes := [exBox], keypoints := [exKpUnknown] })]

/-- The keypoint slot array produced for `exBox` from `exKp1`/`exKp2`. -/
def exKps30 : List Rat := [5, 5, 2] ++ List.replicate 27 0

/-- The annotation emitted for `exBox` on the sample input (the bbox
width and height kept as the unevaluated differences the builder
computes). -/
def exAnnot : CocoAnnot :=
  { segmentation := [], num_keypoints := 10, area := 0, iscrowd := 0,
    keypoints := exKps30, image_id := 0,
    bbox := [exBox.xtl, exBox.ytl, exBox.xbr - exBox.xtl,
             exBox.ybr - exBox.ytl],
    category_id := 1, id := 1 }

/-- The annotation emitted for `exBoxB` when it is the second box of its
image and only `exKp1` is present. -/
def exAnnotB : CocoAnnot :=
  { segmentation := [], num_keypoints := 10, area := 0, iscrowd := 0,
    keypoints := exKps30, image_id := 0,
    bbox := [exBoxB.xtl, exBoxB.ytl, exBoxB.xbr - exBoxB.xtl,
             exBoxB.ybr - exBoxB.ytl],
    category_id := 1, id := 2 }

/-- The category record emitted for the sample vocabulary. -/
def exCategory : CocoCategory :=
  { id := 0, name := "Forklift", keypoints := keypoint_labels,
    skeleton := [] }

/-- The image record emitted for the sample image. -/
def exCocoImage : CocoImage :=
  { file_name := "frame_000001.png", height := "1080", width := "1920",
    id := 0 }

/-- The whole COCO document produced on the sample input. -/
def exCoco : Coco :=
  { categories := [exCategory], licenses := "", images := [exCocoImage],
    annotations := [exAnnot] }

deriving instance DecidableEq for Except

theorem list_index_lt {l : List String} {x : String} {i : Nat}
    (h : list_index l x = some i) : i < l.length := by
  induction l generalizing i with
  | nil => simp [list_index] at h
  | cons y ys ih =>
    rw [list_index] at h
    split at h
    · simp only [Option.some.injEq] at h
      simp [← h]
    · rw [Option.map_eq_some'] at h
      obtain ⟨j, hj, hij⟩ := h
      have := ih hj
      simp only [List.length_cons]
      omega

theorem list_index_getElem? {l : List String} {x : String} {i : Nat}
    (h : list_index l x = some i) : l[i]? = some x := by
  induction l generalizing i with
  | nil => simp [list_index] at h
  | cons y ys ih =>
    rw [list_index] at h
    split at h
    · rename_i hy
      simp only [Option.some.injEq] at h
      subst hy
      rw [← h]
      simp
    · rw [Option.map_eq_some'] at h
      obtain ⟨j, hj, hij⟩ := h
      rw [← hij]
      simpa using ih hj

theorem list_index_inj {a b : String} {j : Nat}
    (ha : list_index keypoint_labels a = some j)
    (hb : list_index keypoint_labels b = some j) : a = b := by
  have h1 := list_index_getElem? ha
  have h2 := list_index_getElem? hb
  rw [h1] at h2
  exact Option.some.inj h2

theorem length_write3 {l : List Rat} {k : Nat} (x y v : Rat)
    (hk : k + 3 ≤ l.length) : (write3 l k x y v).length = l.length := by
  simp only [write3, List.length_append, List.length_take, List.length_drop,
    List.length_cons, List.length_nil]
  omega

theorem getElem?_write3 {l : List Rat} {k m : Nat} {x y v : Rat}
    (hk : k + 3 ≤ l.length) :
    (write3 l k x y v)[m]? =
      if m = k then some x else if m = k + 1 then some y
      else if m = k + 2 then some v else l[m]? := by
  have htk : (l.take k).length = k := by
    rw [List.length_take]
    omega
  unfold write3
  rw [List.append_assoc]
  by_cases h1 : m < k
  · rw [List.getElem?_append_left (by omega), List.getElem?_take_of_lt h1,
      if_neg (by omega), if_neg (by omega), if_neg (by omega)]
  · rw [List.getElem?_append_right (by omega), htk]
    by_cases h2 : m = k
    · subst h2
      simp
    · by_cases h3 : m = k + 1
      · subst h3
        rw [if_neg (by omega), if_pos rfl]
        rw [show k + 1 - k = 1 by omega]
        simp
      · by_cases h4 : m = k + 2
        · subst h4
          rw [if_neg (by omega), if_neg (by omega), if_pos rfl]
          rw [show k + 2 - k = 2 by omega]
          simp
        · rw [if_neg h2, if_neg h3, if_neg h4]
          rw [List.getElem?_append_right
            (by simp only [List.length_cons, List.length_nil]; omega)]
          simp only [List.length_cons, List.length_nil]
          rw [List.getElem?_drop]
          congr 1
          omega

theorem getD_write3 {l : List Rat} {k m : Nat} {x y v : Rat}
    (hk : k + 3 ≤ l.length) :
    (write3 l k x y v).getD m 0 =
      if m = k then x else if m = k + 1 then y
      else if m = k + 2 then v else l.getD m 0 := by
  rw [List.getD_eq_getElem?_getD, List.getD_eq_getElem?_getD,
    getElem?_write3 hk]
  split_ifs <;> rfl

theorem slot_write3_self {arr : List Rat} {i : Nat} (x y v : Rat)
    (hlen : arr.length = 30) (hi : i < 10) :
    slot (write3 arr (i * 3) x y v) i = (x, y, v) := by
  have hk : i * 3 + 3 ≤ arr.length := by omega
  have e1 : (write3 arr (i * 3) x y v).getD (3 * i) 0 = x := by
    rw [getD_write3 hk, if_pos (by omega)]
  have e2 : (write3 arr (i * 3) x y v).getD (3 * i + 1) 0 = y := by
    rw [getD_write3 hk, if_neg (by omega), if_pos (by omega)]
  have e3 : (write3 arr (i * 3) x y v).getD (3 * i + 2) 0 = v := by
    rw [getD_write3 hk, if_neg (by omega), if_neg (by omega),
      if_pos (by omega)]
  unfold slot
  rw [e1, e2, e3]

theorem slot_write3_other {arr : List Rat} {i j : Nat} (x y v : Rat)
    (hlen : arr.length = 30) (hi : i < 10) (hij : j ≠ i) :
    slot (write3 arr (i * 3) x y v) j = slot arr j := by
  have hk : i * 3 + 3 ≤ arr.length := by omega
  have e1 : (write3 arr (i * 3) x y v).getD (3 * j) 0 = arr.getD (3 * j) 0 := by
    rw [getD_write3 hk, if_neg (by omega), if_neg (by omega),
      if_neg (by omega)]
  have e2 : (write3 arr (i * 3) x y v).getD (3 * j + 1) 0 =
      arr.getD (3 * j + 1) 0 := by
    rw [getD_write3 hk, if_neg (by omega), if_neg (by omega),
      if_neg (by omega)]
  have e3 : (write3 arr (i * 3) x y v).getD (3 * j + 2) 0 =
      arr.getD (3 * j + 2) 0 := by
    rw [getD_write3 hk, if_neg (by omega), if_neg (by omega),
      if_neg (by omega)]
  unfold slot
  rw [e1, e2, e3]

theorem slot_replicate (j : Nat) : slot (List.replicate 30 0) j = (0, 0, 0) := by
  have h : ∀ m : Nat, (List.replicate 30 (0 : Rat)).getD m 0 = 0 := by
    intro m
    rw [List.getD_eq_getElem?_getD, List.getElem?_replicate]
    split <;> rfl
  unfold slot
  rw [h, h, h]

theorem process_keypoint_points_none {rect : Rat × Rat × Rat × Rat}
    {arr : List Rat} {kp : KeypointAttrib} (hp : kp.points = none) :
    process_keypoint rect arr kp = .error "SyntaxError" := by
  simp only [process_keypoint, hp]

theorem process_keypoint_label_none {rect : Rat × Rat × Rat × Rat}
    {arr : List Rat} {kp : KeypointAttrib} {p : Rat × Rat}
    (hp : kp.points = some p)
    (hi : list_index keypoint_labels kp.label = none) :
    process_keypoint rect arr kp = .error "ValueError" := by
  simp only [process_keypoint, hp, hi]

theorem process_keypoint_eq {rect : Rat × Rat × Rat × Rat} {arr : List Rat}
    {kp : KeypointAttrib} {p : Rat × Rat} {i : Nat}
    (hp : kp.points = some p)
    (hi : list_index keypoint_labels kp.label = some i) :
    process_keypoint rect arr kp =
      .ok (if is_inside_box p rect then
            write3 arr (i * 3) p.1 p.2 (if kp.occluded = "1" then 1 else 2)
          else arr) := by
  simp only [process_keypoint, hp, hi]
  split <;> rfl

theorem process_keypoint_ok_cases {rect : Rat × Rat × Rat × Rat}
    {arr arr2 : List Rat} {kp : KeypointAttrib}
    (h : process_keypoint rect arr kp = .ok arr2) :
    ∃ p i, kp.points = some p ∧
      list_index keypoint_labels kp.label = some i ∧
      arr2 = if is_inside_box p rect then
          write3 arr (i * 3) p.1 p.2 (if kp.occluded = "1" then 1 else 2)
        else arr := by
  rcases hp : kp.points with _ | p
  · rw [process_keypoint_points_none hp] at h
    simp at h
  · rcases hi : list_index keypoint_labels kp.label with _ | i
    · rw [process_keypoint_label_none hp hi] at h
      simp at h
    · rw [process_keypoint_eq hp hi] at h
      exact ⟨p, i, rfl, rfl, (Except.ok.inj h).symm⟩

theorem process_keypoint_ok_length {rect : Rat × Rat × Rat × Rat}
    {arr arr2 : List Rat} {kp : KeypointAttrib}
    (h : process_keypoint rect arr kp = .ok arr2) (hlen : arr.length = 30) :
    arr2.length = 30 := by
  obtain ⟨p, i, hp, hi, he⟩ := process_keypoint_ok_cases h
  have hlt : i < 10 := list_index_lt hi
  subst he
  split
  · rw [length_write3 _ _ _ (by omega)]
    exact hlen
  · exact hlen

theorem fill_from_ok_length {rect : Rat × Rat × Rat × Rat} :
    ∀ {kps : List KeypointAttrib} {arr arr2 : List Rat},
    fill_from rect arr kps = .ok arr2 → arr.length = 30 →
    arr2.length = 30 := by
  intro kps
  induction kps with
  | nil =>
    intro arr arr2 h hlen
    simp only [fill_from] at h
    rw [← Except.ok.inj h]
    exact hlen
  | cons kp rest ih =>
    intro arr arr2 h hlen
    rw [fill_from] at h
    cases hpk : process_keypoint rect arr kp with
    | error e => rw [hpk] at h; simp at h
    | ok a2 =>
      rw [hpk] at h
      exact ih h (process_keypoint_ok_length hpk hlen)

theorem fill_from_append (rect : Rat × Rat × Rat × Rat)
    (l1 l2 : List KeypointAttrib) (arr : List Rat) :
    fill_from rect arr (l1 ++ l2) =
      match fill_from rect arr l1 with
      | .ok a => fill_from rect a l2
      | .error e => .error e := by
  induction l1 generalizing arr with
  | nil => simp [fill_from]
  | cons kp rest ih =>
    rw [List.cons_append, fill_from, fill_from]
    cases process_keypoint rect arr kp with
    | error e => rfl
    | ok a2 => exact ih a2

theorem fill_from_slot_stable {rect : Rat × Rat × Rat × Rat} {j : Nat}
    {t : Rat × Rat × Rat} :
    ∀ {kps : List KeypointAttrib} {arr arr2 : List Rat},
    fill_from rect arr kps = .ok arr2 → arr.length = 30 → j < 10 →
    (∀ kp ∈ kps, ∀ p i, kp.points = some p →
      list_index keypoint_labels kp.label = some i → i = j →
      is_inside_box p rect = true →
      (p.1, p.2, if kp.occluded = "1" then (1 : Rat) else 2) = t) →
    slot arr j = t → slot arr2 j = t := by
  intro kps
  induction kps with
  | nil =>
    intro arr arr2 h hlen hj hcond hslot
    simp only [fill_from] at h
    rw [← Except.ok.inj h]
    exact hslot
  | cons kp rest ih =>
    intro arr arr2 h hlen hj hcond hslot
    rw [fill_from] at h
    cases hpk : process_keypoint rect arr kp with
    | error e => rw [hpk] at h; simp at h
    | ok a2 =>
      rw [hpk] at h
      refine ih h (process_keypoint_ok_length hpk hlen) hj
        (fun kp2 hm2 => hcond kp2 (List.mem_cons_of_mem _ hm2)) ?_
      obtain ⟨p, i, hp, hi, he⟩ := process_keypoint_ok_cases hpk
      have hi10 : i < 10 := list_index_lt hi
      subst he
      by_cases hin : is_inside_box p rect
      · rw [if_pos hin]
        by_cases hij : i = j
        · subst hij
          rw [slot_write3_self _ _ _ hlen hi10]
          exact hcond kp (List.mem_cons_self _ _) p i hp hi rfl hin
        · rw [slot_write3_other _ _ _ hlen hi10 (fun hji => hij hji.symm)]
          exact hslot
      · rw [if_neg hin]
        exact hslot

theorem fill_from_slot_write {rect : Rat × Rat × Rat × Rat}
    {kp : KeypointAttrib} {p : Rat × Rat} {j : Nat} :
    ∀ {kps : List KeypointAttrib} {arr arr2 : List Rat},
    fill_from rect arr kps = .ok arr2 → arr.length = 30 →
    kp ∈ kps → kp.points = some p →
    list_index keypoint_labels kp.label = some j →
    (∀ kp2 ∈ kps, kp2.label = kp.label → kp2 = kp) →
    is_inside_box p rect = true →
    slot arr2 j = (p.1, p.2, if kp.occluded = "1" then (1 : Rat) else 2) := by
  intro kps
  induction kps with
  | nil =>
    intro arr arr2 h hlen hm
    simp at hm
  | cons khd rest ih =>
    intro arr arr2 h hlen hm hp hj huniq hin
    have hj10 : j < 10 := list_index_lt hj
    rw [fill_from] at h
    cases hpk : process_keypoint rect arr khd with
    | error e => rw [hpk] at h; simp at h
    | ok a2 =>
      rw [hpk] at h
      have hlen2 := process_keypoint_ok_length hpk hlen
      by_cases hhd : khd = kp
      · subst hhd
        have hslot : slot a2 j =
            (p.1, p.2, if khd.occluded = "1" then (1 : Rat) else 2) := by
          obtain ⟨p2, i2, hp2, hi2, he⟩ := process_keypoint_ok_cases hpk
          rw [hp] at hp2
          rw [hj] at hi2
          obtain rfl := Option.some.inj hp2
          obtain rfl := Option.some.inj hi2
          rw [he, if_pos hin, slot_write3_self _ _ _ hlen hj10]
        refine fill_from_slot_stable h hlen2 hj10 ?_ hslot
        intro kp2 hm2 p2 i2 hp2 hi2 hi2j hin2
        subst hi2j
        have hlab : kp2.label = khd.label := list_index_inj hi2 hj
        have heq : kp2 = khd := huniq kp2 (List.mem_cons_of_mem _ hm2) hlab
        subst heq
        rw [hp] at hp2
        obtain rfl := Option.some.inj hp2
        rfl
      · have hm2 : kp ∈ rest := by
          rcases List.mem_cons.mp hm with heq | hm2
          · exact absurd heq.symm hhd
          · exact hm2
        exact ih h hlen2 hm2 hp hj
          (fun kp2 hmm => huniq kp2 (List.mem_cons_of_mem _ hmm)) hin

theorem fill_from_slot_cases {rect : Rat × Rat × Rat × Rat} {j : Nat} :
    ∀ {kps : List KeypointAttrib} {arr arr2 : List Rat},
    fill_from rect arr kps = .ok arr2 → arr.length = 30 → j < 10 →
    slot arr2 j = slot arr j ∨
      ∃ kp ∈ kps, ∃ p i, kp.points = some p ∧
        list_index keypoint_labels kp.label = some i ∧ i = j ∧
        is_inside_box p rect = true ∧
        slot arr2 j = (p.1, p.2, if kp.occluded = "1" then (1 : Rat) else 2) := by
  intro kps
  induction kps with
  | nil =>
    intro arr arr2 h hlen hj
    left
    simp only [fill_from] at h
    rw [← Except.ok.inj h]
  | cons khd rest ih =>
    intro arr arr2 h hlen hj
    rw [fill_from] at h
    cases hpk : process_keypoint rect arr khd with
    | error e => rw [hpk] at h; simp at h
    | ok a2 =>
      rw [hpk] at h
      have hlen2 := process_keypoint_ok_length hpk hlen
      rcases ih h hlen2 hj with hsame | ⟨kp, hm, p, i, hp, hi, hij, hin, hs⟩
      · obtain ⟨p, i, hp, hi, he⟩ := process_keypoint_ok_cases hpk
        have hi10 : i < 10 := list_index_lt hi
        subst he
        by_cases hin : is_inside_box p rect
        · rw [if_pos hin] at hsame
          by_cases hij : i = j
          · subst hij
            right
            refine ⟨khd, List.mem_cons_self _ _, p, i, hp, hi, rfl, hin, ?_⟩
            rw [hsame, slot_write3_self _ _ _ hlen hi10]
          · left
            rw [hsame, slot_write3_other _ _ _ hlen hi10
              (fun hji => hij hji.symm)]
        · rw [if_neg hin] at hsame
          left
          exact hsame
      · right
        exact ⟨kp, List.mem_cons_of_mem _ hm, p, i, hp, hi, hij, hin, hs⟩

theorem make_coco_box_ok {idx : Int} {m : Nat} {b : BoxAttrib}
    {kps : List KeypointAttrib} {a : CocoAnnot}
    (h : make_coco_box idx m b kps = .ok a) :
    a.segmentation = [] ∧ a.num_keypoints = 10 ∧ a.area = 0 ∧
    a.iscrowd = 0 ∧ a.image_id = idx ∧
    a.bbox = [b.xtl, b.ytl, b.xbr - b.xtl, b.ybr - b.ytl] ∧
    a.category_id = FORKLIFT_CATEGORY_ID ∧ a.id = m ∧
    fill_keypoints (b.xtl, b.ytl, b.xbr, b.ybr) kps = .ok a.keypoints := by
  unfold make_coco_box at h
  cases hf : fill_keypoints (b.xtl, b.ytl, b.xbr, b.ybr) kps with
  | error e => rw [hf] at h; simp at h
  | ok ks =>
    rw [hf] at h
    have he := Except.ok.inj h
    subst he
    exact ⟨rfl, rfl, rfl, rfl, rfl, rfl, rfl, rfl, rfl⟩

theorem build_boxes_ok {idx : Int} {kps : List KeypointAttrib} :
    ∀ {bs : List BoxAttrib} {n : Nat} {l : List CocoAnnot} {n2 : Nat},
    build_boxes idx kps n bs = .ok (l, n2) →
    n2 = n + bs.length ∧ l.length = bs.length ∧
    ∀ k : Nat, ∀ b : BoxAttrib, bs[k]? = some b →
      ∃ a, l[k]? = some a ∧ make_coco_box idx (n + k + 1) b kps = .ok a := by
  intro bs
  induction bs with
  | nil =>
    intro n l n2 h
    simp only [build_boxes, Except.ok.injEq, Prod.mk.injEq] at h
    obtain ⟨h1, h2⟩ := h
    subst h1
    subst h2
    refine ⟨rfl, rfl, ?_⟩
    intro k b hb
    simp at hb
  | cons b bs ih =>
    intro n l n2 h
    rw [build_boxes] at h
    cases hm : make_coco_box idx (n + 1) b kps with
    | error e => rw [hm] at h; simp at h
    | ok a =>
      rw [hm] at h
      cases hb : build_boxes idx kps (n + 1) bs with
      | error e => rw [hb] at h; simp at h
      | ok pr =>
        obtain ⟨rest, n3⟩ := pr
        rw [hb] at h
        simp only [Except.ok.injEq, Prod.mk.injEq] at h
        obtain ⟨h1, h2⟩ := h
        subst h1
        subst h2
        obtain ⟨hn, hlen, hget⟩ := ih hb
        refine ⟨by simp only [List.length_cons]; omega,
          by simp [hlen], ?_⟩
        intro k bk hbk
        cases k with
        | zero =>
          simp only [List.getElem?_cons_zero, Option.some.injEq] at hbk
          subst hbk
          exact ⟨a, by simp, hm⟩
        | succ k2 =>
          simp only [List.getElem?_cons_succ] at hbk
          obtain ⟨a2, hl2, hmk⟩ := hget k2 bk hbk
          refine ⟨a2, by simpa using hl2, ?_⟩
          rw [show n + (k2 + 1) + 1 = n + 1 + k2 + 1 by omega]
          exact hmk

theorem build_image_annots_mem {anns : List (Int × ImageAnnotations)} :
    ∀ {imgs : List (Int × ImageAttrib)} {n : Nat} {l : List CocoAnnot}
      {n2 : Nat},
    build_image_annots anns n imgs = .ok (l, n2) →
    ∀ a ∈ l, ∃ idx ann b m, anns.lookup idx = some ann ∧ b ∈ ann.bboxes ∧
      make_coco_box idx m b ann.keypoints = .ok a := by
  intro imgs
  induction imgs with
  | nil =>
    intro n l n2 h a ha
    simp only [build_image_annots, Except.ok.injEq, Prod.mk.injEq] at h
    obtain ⟨h1, h2⟩ := h
    subst h1
    simp at ha
  | cons hd rest ih =>
    intro n l n2 h a ha
    obtain ⟨idx, attr⟩ := hd
    rw [build_image_annots] at h
    cases hlk : anns.lookup idx with
    | none => simp only [hlk] at h; simp at h
    | some ann =>
      simp only [hlk] at h
      cases hbb : build_boxes idx ann.keypoints n ann.bboxes with
      | error e => simp only [hbb] at h; simp at h
      | ok pr =>
        obtain ⟨here, n3⟩ := pr
        simp only [hbb] at h
        cases hrest : build_image_annots anns n3 rest with
        | error e => simp only [hrest] at h; simp at h
        | ok pr2 =>
          obtain ⟨more, n4⟩ := pr2
          simp only [hrest, Except.ok.injEq, Prod.mk.injEq] at h
          obtain ⟨h1, h2⟩ := h
          subst h1
          rcases List.mem_append.mp ha with hh | hm
          · obtain ⟨⟨k, hk⟩, hgetk⟩ := List.get_of_mem hh
            obtain ⟨hn3, hlen, hget⟩ := build_boxes_ok hbb
            have hkb : k < ann.bboxes.length := by omega
            obtain ⟨a2, hl2, hmk⟩ := hget k ann.bboxes[k]
              (List.getElem?_eq_getElem hkb)
            rw [List.getElem?_eq_getElem hk] at hl2
            have ha2 : a2 = a := by
              have := Option.some.inj hl2
              rw [← this, ← hgetk]
              rfl
            subst ha2
            exact ⟨idx, ann, ann.bboxes[k], n + k + 1, hlk,
              List.getElem_mem hkb, hmk⟩
          · exact ih hrest a hm

theorem build_image_annots_ids {anns : List (Int × ImageAnnotations)} :
    ∀ {imgs : List (Int × ImageAttrib)} {n : Nat} {l : List CocoAnnot}
      {n2 : Nat},
    build_image_annots anns n imgs = .ok (l, n2) →
    (∀ (k : Nat) (a : CocoAnnot), l[k]? = some a → a.id = n + k + 1) ∧
      n2 = n + l.length := by
  intro imgs
  induction imgs with
  | nil =>
    intro n l n2 h
    simp only [build_image_annots, Except.ok.injEq, Prod.mk.injEq] at h
    obtain ⟨h1, h2⟩ := h
    subst h1
    subst h2
    refine ⟨?_, rfl⟩
    intro k a ha
    simp at ha
  | cons hd rest ih =>
    intro n l n2 h
    obtain ⟨idx, attr⟩ := hd
    rw [build_image_annots] at h
    cases hlk : anns.lookup idx with
    | none => simp only [hlk] at h; simp at h
    | some ann =>
      simp only [hlk] at h
      cases hbb : build_boxes idx ann.keypoints n ann.bboxes with
      | error e => simp only [hbb] at h; simp at h
      | ok pr =>
        obtain ⟨here, n3⟩ := pr
        simp only [hbb] at h
        cases hrest : build_image_annots anns n3 rest with
        | error e => simp only [hrest] at h; simp at h
        | ok pr2 =>
          obtain ⟨more, n4⟩ := pr2
          simp only [hrest, Except.ok.injEq, Prod.mk.injEq] at h
          obtain ⟨h1, h2⟩ := h
          subst h1
          subst h2
          obtain ⟨hn3, hlenb, hget⟩ := build_boxes_ok hbb
          obtain ⟨hmore, hn4⟩ := ih hrest
          constructor
          · intro k a ha
            by_cases hk : k < here.length
            · rw [List.getElem?_append_left hk] at ha
              have hkb : k < ann.bboxes.length := by omega
              obtain ⟨a2, hl2, hmk⟩ := hget k ann.bboxes[k]
                (List.getElem?_eq_getElem hkb)
              rw [hl2] at ha
              obtain rfl := Option.some.inj ha
              exact (make_coco_box_ok hmk).2.2.2.2.2.2.2.1
            · rw [List.getElem?_append_right (by omega)] at ha
              have := hmore (k - here.length) a ha
              omega
          · rw [List.length_append]
            omega

theorem construct_ok_parts {ds : String} {labels : List String}
    {imgs : List (Int × ImageAttrib)}
    {anns : List (Int × ImageAnnotations)} {coco : Coco}
    (h : construct_coco_keypoints ds labels imgs anns = .ok coco) :
    coco.categories = coco_categories_of labels ∧
    coco.licenses = "" ∧
    coco.images = coco_images_of imgs ∧
    ∃ n2, build_image_annots anns 0 imgs = .ok (coco.annotations, n2) := by
  unfold construct_coco_keypoints at h
  cases hb : build_image_annots anns 0 imgs with
  | error e => rw [hb] at h; simp at h
  | ok pr =>
    obtain ⟨l, n2⟩ := pr
    rw [hb] at h
    have he := Except.ok.inj h
    subst he
    exact ⟨rfl, rfl, rfl, n2, rfl⟩

theorem mem_coco_categories_from :
    ∀ {ls : List String} {i : Nat} {c : CocoCategory},
    c ∈ coco_categories_from i ls ↔
      ∃ j, ∃ hj : j < ls.length, ls[j] ∈ VALID_CLASS_NAME ∧
        c = { id := i + j, name := ls[j], keypoints := keypoint_labels,
              skeleton := [] } := by
  intro ls
  induction ls with
  | nil =>
    intro i c
    simp [coco_categories_from]
  | cons y ys ih =>
    intro i c
    rw [coco_categories_from]
    by_cases hy : y ∈ VALID_CLASS_NAME
    · rw [if_pos hy]
      constructor
      · intro hmem
        rcases List.mem_cons.mp hmem with heq | hmem2
        · exact ⟨0, by simp, hy, heq⟩
        · obtain ⟨j, hj, hv, hc⟩ := ih.mp hmem2
          refine ⟨j + 1, by simpa using Nat.succ_lt_succ hj, ?_, ?_⟩
          · simpa using hv
          · rw [hc]
            have harith : i + 1 + j = i + (j + 1) := by omega
            simp [harith]
      · rintro ⟨j, hj, hv, hc⟩
        cases j with
        | zero =>
          rw [hc]
          exact List.mem_cons_self _ _
        | succ j2 =>
          apply List.mem_cons_of_mem
          apply ih.mpr
          refine ⟨j2, by simpa using hj, by simpa using hv, ?_⟩
          rw [hc]
          have harith : i + 1 + j2 = i + (j2 + 1) := by omega
          simp [harith]
    · rw [if_neg hy]
      constructor
      · intro hmem
        obtain ⟨j, hj, hv, hc⟩ := ih.mp hmem
        refine ⟨j + 1, by simpa using Nat.succ_lt_succ hj, ?_, ?_⟩
        · simpa using hv
        · rw [hc]
          have harith : i + 1 + j = i + (j + 1) := by omega
          simp [harith]
      · rintro ⟨j, hj, hv, hc⟩
        cases j with
        | zero => exact absurd hv hy
        | succ j2 =>
          apply ih.mpr
          refine ⟨j2, by simpa using hj, by simpa using hv, ?_⟩
          rw [hc]
          have harith : i + 1 + j2 = i + (j2 + 1) := by omega
          simp [harith]

theorem coco_categories_from_id_ge {ls : List String} {i : Nat}
    {c : CocoCategory} (h : c ∈ coco_categories_from i ls) : i ≤ c.id := by
  obtain ⟨j, hj, hv, hc⟩ := mem_coco_categories_from.mp h
  rw [hc]
  exact Nat.le_add_right _ _

theorem coco_categories_from_filter_id :
    ∀ {ls : List String} {i j : Nat}, j < ls.length →
    ls.getD j "" ∈ VALID_CLASS_NAME →
    ((coco_categories_from i ls).filter fun c => c.id == i + j).length = 1 := by
  intro ls
  induction ls with
  | nil =>
    intro i j hj
    simp at hj
  | cons y ys ih =>
    intro i j hj hv
    rw [coco_categories_from]
    cases j with
    | zero =>
      have hy : y ∈ VALID_CLASS_NAME := by simpa using hv
      rw [if_pos hy, List.filter_cons]
      rw [if_pos (by simp)]
      have hnil : (coco_categories_from (i + 1) ys).filter
          (fun c => c.id == i + 0) = [] := by
        apply List.filter_eq_nil_iff.mpr
        intro c hc
        have := coco_categories_from_id_ge hc
        simp only [beq_iff_eq]
        omega
      rw [hnil]
      rfl
    | succ j2 =>
      have hv2 : ys.getD j2 "" ∈ VALID_CLASS_NAME := by simpa using hv
      have hj2 : j2 < ys.length := by simpa using hj
      have harith : i + (j2 + 1) = i + 1 + j2 := by omega
      by_cases hy : y ∈ VALID_CLASS_NAME
      · rw [if_pos hy, List.filter_cons, if_neg (by simp)]
        rw [harith]
        exact ih hj2 hv2
      · rw [if_neg hy, harith]
        exact ih hj2 hv2

theorem coco_images_of_getElem? (imgs : List (Int × ImageAttrib)) (k : Nat) :
    (coco_images_of imgs)[k]? = (imgs[k]?).map fun p =>
      { file_name := p.2.name, height := p.2.height, width := p.2.width,
        id := p.1 } := by
  simp [coco_images_of]

/-- C1: a keypoint record of the image is attributed to a box — its
(x, y, visibility) triple written into the box's 30-slot array at offset
index*3 — exactly when its point lies inside the box's rectangle
(xtl, ytl, xbr, ybr), and that containment test is the inclusive
comparison on all four edges: an edge or corner point is included, a
point strictly outside any edge is excluded. -/
theorem c1_attribution (rect : Rat × Rat × Rat × Rat) (arr : List Rat)
    (kp : KeypointAttrib) (p : Rat × Rat) (i : Nat)
    (hp : kp.points = some p)
    (hi : list_index keypoint_labels kp.label = some i) :
    process_keypoint rect arr kp =
      .ok (if is_inside_box p rect then
            write3 arr (i * 3) p.1 p.2 (if kp.occluded = "1" then 1 else 2)
          else arr) ∧
    (is_inside_box p rect = true ↔
      (rect.1 ≤ p.1 ∧ p.1 ≤ rect.2.2.1 ∧ rect.2.1 ≤ p.2 ∧
        p.2 ≤ rect.2.2.2)) := by
  refine ⟨process_keypoint_eq hp hi, ?_⟩
  simp [is_inside_box, ge_iff_le]

/-- Witness for C1 at a concrete input: the LFrontWheel keypoint at (5, 5)
against the box (0, 0)-(10, 10). -/
theorem c1_attribution_witness :
    process_keypoint (0, 0, 10, 10) (List.replicate 30 0) exKp1 =
      .ok (if is_inside_box (5, 5) (0, 0, 10, 10) then
            write3 (List.replicate 30 0) (0 * 3) (5 : Rat) 5
              (if exKp1.occluded = "1" then 1 else 2)
          else List.replicate 30 0) ∧
    (is_inside_box (5, 5) (0, 0, 10, 10) = true ↔
      ((0 : Rat) ≤ 5 ∧ (5 : Rat) ≤ 10 ∧ (0 : Rat) ≤ 5 ∧ (5 : Rat) ≤ 10)) :=
  c1_attribution (0, 0, 10, 10) (List.replicate 30 0) exKp1 (5, 5) 0 rfl rfl

/-- C3: annotation ids are 1-based and strictly increasing in the order
boxes are visited (image iteration order, then box encounter order):
the annotation at position k of the output list has id k + 1. -/
theorem c3_annotation_ids (ds : String) (labels : List String)
    (imgs : List (Int × ImageAttrib)) (anns : List (Int × ImageAnnotations))
    (coco : Coco)
    (h : construct_coco_keypoints ds labels imgs anns = .ok coco) :
    ∀ (k : Nat) (a : CocoAnnot), coco.annotations[k]? = some a →
      a.id = k + 1 := by
  obtain ⟨_, _, _, n2, hbuild⟩ := construct_ok_parts h
  intro k a ha
  have := (build_image_annots_ids hbuild).1 k a ha
  omega

/-- Witness for C3: the first (and only) annotation of the sample run has
id 1. -/
theorem c3_annotation_ids_witness : exAnnot.id = 0 + 1 :=
  c3_annotation_ids "COCO Keypoints Dataset" ["Forklift"] [(0, exImage)]
    exAnns exCoco rfl 0 exAnnot rfl

/-- C9: when the input path does not resolve to a regular file, the
extractor logs a file-not-found message and returns normally (no
exception) with the bare empty dict, which is not the normal
(labels, images, annotations) triple. -/
theorem c9_missing_file (xml_path : String) (root : Xml) :
    parse_xml_file xml_path false root =
      (["No file found at " ++ xml_path], .ok .empty) ∧
    ParseResult.empty.isTriple = false :=
  ⟨rfl, rfl⟩

/-- C10: one COCO image record is emitted per image-mapping entry, in
order, with file name, height and width copied verbatim as the attribute
strings and the integer image id — independently of the annotation input
(in particular of whether the image has any boxes). -/
theorem c10_image_records (ds : String) (labels : List String)
    (imgs : List (Int × ImageAttrib)) (anns : List (Int × ImageAnnotations))
    (coco : Coco)
    (h : construct_coco_keypoints ds labels imgs anns = .ok coco) :
    coco.images.length = imgs.length ∧
    ∀ (k : Nat) (idx : Int) (item : ImageAttrib),
      imgs[k]? = some (idx, item) →
      coco.images[k]? = some { file_name := item.name,
                               height := item.height,
                               width := item.width, id := idx } := by
  obtain ⟨_, _, himg, n2, hbuild⟩ := construct_ok_parts h
  constructor
  · rw [himg]
    simp [coco_images_of]
  · intro k idx item hk
    rw [himg, coco_images_of_getElem?, hk]
    rfl

/-- Witness for C10: the sample image record is copied verbatim. -/
theorem c10_image_records_witness :
    exCoco.images[0]? = some { file_name := exImage.name,
                               height := exImage.height,
                               width := exImage.width, id := (0 : Int) } :=
  (c10_image_records "COCO Keypoints Dataset" ["Forklift"] [(0, exImage)]
    exAnns exCoco rfl).2 0 0 exImage rfl

/-- C4: every emitted category has the id equal to its label's zero-based
position in the original vocabulary (so the label text at that position is
the category's name, a recognized class name), carries the fixed
ten-keypoint name list and an empty skeleton; and for each position
holding a recognized label exactly one category record with that id is
emitted. -/
theorem c4_category_records (labels : List String) :
    (∀ c ∈ coco_categories_of labels, c.id < labels.length ∧
      labels.getD c.id "" = c.name ∧ c.name ∈ VALID_CLASS_NAME ∧
      c.keypoints = keypoint_labels ∧ c.skeleton = []) ∧
    (∀ j, j < labels.length → labels.getD j "" ∈ VALID_CLASS_NAME →
      ((coco_categories_of labels).filter fun c => c.id == j).length = 1) := by
  constructor
  · intro c hc
    obtain ⟨j, hj, hv, hcc⟩ := mem_coco_categories_from.mp hc
    subst hcc
    refine ⟨?_, ?_, hv, rfl, rfl⟩
    · show 0 + j < labels.length
      omega
    · show labels.getD (0 + j) "" = labels[j]
      rw [show 0 + j = j from by omega, List.getD_eq_getElem _ _ hj]
  · intro j hj hv
    have hfid := coco_categories_from_filter_id (i := 0) hj hv
    simpa [Nat.zero_add] using hfid

/-- Witness for C4: with vocabulary ["Other", "Forklift"], exactly one
category carries id 1 (the original position of "Forklift"), not a
densely reassigned 0. -/
theorem c4_category_records_witness :
    ((coco_categories_of ["Other", "Forklift"]).filter
      fun c => c.id == 1).length = 1 :=
  (c4_category_records ["Other", "Forklift"]).2 1 (by decide) (by decide)

/-- C5: every emitted annotation's category_id is the hardcoded constant
1; hence whenever no recognized label sits at zero-based position 1 of the
vocabulary, every annotation references a category id carried by no
emitted category record. -/
theorem c5_category_id_mismatch (ds : String) (labels : List String)
    (imgs : List (Int × ImageAttrib)) (anns : List (Int × ImageAnnotations))
    (coco : Coco)
    (h : construct_coco_keypoints ds labels imgs anns = .ok coco) :
    FORKLIFT_CATEGORY_ID = 1 ∧
    (∀ a ∈ coco.annotations, a.category_id = 1) ∧
    ((∀ j, j < labels.length → labels.getD j "" ∈ VALID_CLASS_NAME →
        j ≠ 1) →
      ∀ a ∈ coco.annotations, ∀ c ∈ coco.categories,
        a.category_id ≠ c.id) := by
  obtain ⟨hcat, _, _, n2, hbuild⟩ := construct_ok_parts h
  have hann : ∀ a ∈ coco.annotations, a.category_id = 1 := by
    intro a ha
    obtain ⟨idx, ann, b, m, _, _, hmk⟩ := build_image_annots_mem hbuild a ha
    exact (make_coco_box_ok hmk).2.2.2.2.2.2.1
  refine ⟨rfl, hann, ?_⟩
  intro hpos a ha c hc
  rw [hcat] at hc
  obtain ⟨j, hj, hv, hcc⟩ := mem_coco_categories_from.mp hc
  have hvD : labels.getD j "" ∈ VALID_CLASS_NAME := by
    rw [List.getD_eq_getElem _ _ hj]
    exact hv
  have hj1 : j ≠ 1 := hpos j hj hvD
  rw [hann a ha, hcc]
  show (1 : Nat) ≠ 0 + j
  omega

/-- Witness for C5: on the sample input (vocabulary ["Forklift"], whose
only recognized label sits at position 0) the annotation's category_id
matches no emitted category's id. -/
theorem c5_category_id_mismatch_witness :
    exAnnot.category_id ≠ exCategory.id :=
  (c5_category_id_mismatch "COCO Keypoints Dataset" ["Forklift"]
    [(0, exImage)] exAnns exCoco rfl).2.2
    (fun j hj _ => by simp only [List.length_singleton] at hj; omega)
    exAnnot (List.mem_cons_self _ _)
    exCategory (List.mem_cons_self _ _)

/-- C6: every emitted annotation has empty segmentation, num_keypoints 10,
area 0, iscrowd 0, and a bbox equal to [xtl, ytl, xbr - xtl, ybr - ytl]
computed from the four coordinates of one box of its image, whatever the
box contents. -/
theorem c6_fixed_fields (ds : String) (labels : List String)
    (imgs : List (Int × ImageAttrib)) (anns : List (Int × ImageAnnotations))
    (coco : Coco)
    (h : construct_coco_keypoints ds labels imgs anns = .ok coco) :
    ∀ a ∈ coco.annotations, a.segmentation = [] ∧ a.num_keypoints = 10 ∧
      a.area = 0 ∧ a.iscrowd = 0 ∧
      ∃ idx ann b, anns.lookup idx = some ann ∧ b ∈ ann.bboxes ∧
        a.image_id = idx ∧
        a.bbox = [b.xtl, b.ytl, b.xbr - b.xtl, b.ybr - b.ytl] := by
  intro a ha
  obtain ⟨_, _, _, n2, hbuild⟩ := construct_ok_parts h
  obtain ⟨idx, ann, b, m, hlk, hbm, hmk⟩ := build_image_annots_mem hbuild a ha
  obtain ⟨hseg, hnum, harea, hcrowd, himgid, hbbox, _, _, _⟩ :=
    make_coco_box_ok hmk
  exact ⟨hseg, hnum, harea, hcrowd, idx, ann, b, hlk, hbm, himgid, hbbox⟩

/-- Witness for C6 on the sample input. -/
theorem c6_fixed_fields_witness :
    exAnnot.segmentation = [] ∧ exAnnot.num_keypoints = 10 ∧
      exAnnot.area = 0 ∧ exAnnot.iscrowd = 0 ∧
      ∃ idx ann b, exAnns.lookup idx = some ann ∧ b ∈ ann.bboxes ∧
        exAnnot.image_id = idx ∧
        exAnnot.bbox = [b.xtl, b.ytl, b.xbr - b.xtl, b.ybr - b.ytl] :=
  c6_fixed_fields "COCO Keypoints Dataset" ["Forklift"] [(0, exImage)]
    exAnns exCoco rfl exAnnot (List.mem_cons_self _ _)

/-- C2: every emitted annotation's keypoints field has 30 entries (10
keypoints times 3), and each 3-slot block either is exactly (0, 0, 0) —
the untouched zero-fill, the only way visibility 0 occurs — or holds the
(x, y, visibility) triple of a keypoint of the same image contained in the
box, written at offset label-index times 3, with visibility 1 when the
occlusion flag is the string "1" and 2 otherwise. -/
theorem c2_slot_array (ds : String) (labels : List String)
    (imgs : List (Int × ImageAttrib)) (anns : List (Int × ImageAnnotations))
    (coco : Coco)
    (h : construct_coco_keypoints ds labels imgs anns = .ok coco) :
    ∀ a ∈ coco.annotations, a.keypoints.length = 30 ∧
      ∃ idx ann b, anns.lookup idx = some ann ∧ b ∈ ann.bboxes ∧
        a.image_id = idx ∧
        ∀ j, j < 10 →
          slot a.keypoints j = (0, 0, 0) ∨
          ∃ kp ∈ ann.keypoints, ∃ p, kp.points = some p ∧
            list_index keypoint_labels kp.label = some j ∧
            is_inside_box p (b.xtl, b.ytl, b.xbr, b.ybr) = true ∧
            slot a.keypoints j =
              (p.1, p.2, if kp.occluded = "1" then (1 : Rat) else 2) := by
  intro a ha
  obtain ⟨_, _, _, n2, hbuild⟩ := construct_ok_parts h
  obtain ⟨idx, ann, b, m, hlk, hbm, hmk⟩ := build_image_annots_mem hbuild a ha
  have hfill := (make_coco_box_ok hmk).2.2.2.2.2.2.2.2
  have hlen : a.keypoints.length = 30 := fill_from_ok_length hfill (by simp)
  refine ⟨hlen, idx, ann, b, hlk, hbm, (make_coco_box_ok hmk).2.2.2.2.1, ?_⟩
  intro j hj
  rcases fill_from_slot_cases hfill (by simp) hj with hsame |
    ⟨kp, hm, p, i, hp, hi, hij, hin, hs⟩
  · left
    rw [hsame, slot_replicate]
  · right
    subst hij
    exact ⟨kp, hm, p, hp, hi, hin, hs⟩

/-- Witness for C2 on the sample input. -/
theorem c2_slot_array_witness :
    exAnnot.keypoints.length = 30 ∧
      ∃ idx ann b, exAnns.lookup idx = some ann ∧ b ∈ ann.bboxes ∧
        exAnnot.image_id = idx ∧
        ∀ j, j < 10 →
          slot exAnnot.keypoints j = (0, 0, 0) ∨
          ∃ kp ∈ ann.keypoints, ∃ p, kp.points = some p ∧
            list_index keypoint_labels kp.label = some j ∧
            is_inside_box p (b.xtl, b.ytl, b.xbr, b.ybr) = true ∧
            slot exAnnot.keypoints j =
              (p.1, p.2, if kp.occluded = "1" then (1 : Rat) else 2) :=
  c2_slot_array "COCO Keypoints Dataset" ["Forklift"] [(0, exImage)]
    exAnns exCoco rfl exAnnot (List.mem_cons_self _ _)

/-- C7 counterexample: a keypoint whose label is not among the ten
recognized names, at a point inside no box of its image, is not silently
dropped — the build aborts with the label-lookup error, because the
lookup runs before the containment test. -/
theorem c7_counterexample :
    construct_coco_keypoints "COCO Keypoints Dataset" ["Forklift"]
      [(0, exImage)] exAnnsBad = .error "ValueError" ∧
    is_inside_box (50, 50) (exBox.xtl, exBox.ytl, exBox.xbr, exBox.ybr) =
      false :=
  ⟨rfl, rfl⟩

/-- C7 (amended): a keypoint whose label is one of the ten recognized
names and whose point string parses is silently dropped by any box whose
rectangle does not contain its point: removing it from the image's
keypoint list leaves the per-box keypoint fill — and hence the box's
annotation, and whether the build errors — unchanged. -/
theorem c7_dropped_keypoint (rect : Rat × Rat × Rat × Rat)
    (l1 l2 : List KeypointAttrib) (kp : KeypointAttrib) (p : Rat × Rat)
    (i : Nat) (hp : kp.points = some p)
    (hi : list_index keypoint_labels kp.label = some i)
    (hout : is_inside_box p rect = false) :
    fill_keypoints rect (l1 ++ kp :: l2) =
      fill_keypoints rect (l1 ++ l2) := by
  unfold fill_keypoints
  rw [fill_from_append, fill_from_append]
  cases fill_from rect (List.replicate 30 0) l1 with
  | error e => rfl
  | ok arr =>
    show fill_from rect arr (kp :: l2) = fill_from rect arr l2
    rw [fill_from]
    simp [process_keypoint_eq hp hi, hout]

/-- Witness for C7 (amended): dropping the out-of-box RBackWheel keypoint
leaves the fill for the box (0, 0)-(10, 10) unchanged. -/
theorem c7_dropped_keypoint_witness :
    fill_keypoints (exBox.xtl, exBox.ytl, exBox.xbr, exBox.ybr)
        ([] ++ exKp2 :: []) =
      fill_keypoints (exBox.xtl, exBox.ytl, exBox.xbr, exBox.ybr)
        ([] ++ []) :=
  c7_dropped_keypoint (exBox.xtl, exBox.ytl, exBox.xbr, exBox.ybr) [] []
    exKp2 (50, 50) 3 rfl rfl rfl

/-- C8: all keypoints of an image are tested against every box of the
image; when two boxes both contain a keypoint's point, the annotations
built for both boxes carry the keypoint's (x, y, visibility) triple in the
corresponding slot — no exclusivity or first-match assignment. -/
theorem c8_no_exclusivity (idx : Int) (kps : List KeypointAttrib) (n : Nat)
    (bs : List BoxAttrib) (l : List CocoAnnot) (n2 : Nat)
    (h : build_boxes idx kps n bs = .ok (l, n2))
    (k1 k2 : Nat) (b1 b2 : BoxAttrib)
    (hb1 : bs[k1]? = some b1) (hb2 : bs[k2]? = some b2)
    (kp : KeypointAttrib) (hm : kp ∈ kps) (p : Rat × Rat) (j : Nat)
    (hp : kp.points = some p)
    (hj : list_index keypoint_labels kp.label = some j)
    (huniq : ∀ kp2 ∈ kps, kp2.label = kp.label → kp2 = kp)
    (hin1 : is_inside_box p (b1.xtl, b1.ytl, b1.xbr, b1.ybr) = true)
    (hin2 : is_inside_box p (b2.xtl, b2.ytl, b2.xbr, b2.ybr) = true) :
    ∃ a1 a2, l[k1]? = some a1 ∧ l[k2]? = some a2 ∧
      slot a1.keypoints j =
        (p.1, p.2, if kp.occluded = "1" then (1 : Rat) else 2) ∧
      slot a2.keypoints j =
        (p.1, p.2, if kp.occluded = "1" then (1 : Rat) else 2) := by
  obtain ⟨hn, hlen, hget⟩ := build_boxes_ok h
  obtain ⟨a1, hl1, hmk1⟩ := hget k1 b1 hb1
  obtain ⟨a2, hl2, hmk2⟩ := hget k2 b2 hb2
  have hf1 := (make_coco_box_ok hmk1).2.2.2.2.2.2.2.2
  have hf2 := (make_coco_box_ok hmk2).2.2.2.2.2.2.2.2
  exact ⟨a1, a2, hl1, hl2,
    fill_from_slot_write hf1 (by simp) hm hp hj huniq hin1,
    fill_from_slot_write hf2 (by simp) hm hp hj huniq hin2⟩

/-- Witness for C8: the boxes (0, 0)-(10, 10) and (3, 3)-(8, 8) both
contain the LFrontWheel keypoint at (5, 5), and both of their annotations
carry its triple in slot 0. -/
theorem c8_no_exclusivity_witness :
    ∃ a1 a2, [exAnnot, exAnnotB][0]? = some a1 ∧
      [exAnnot, exAnnotB][1]? = some a2 ∧
      slot a1.keypoints 0 =
        ((5 : Rat), (5 : Rat),
          if exKp1.occluded = "1" then (1 : Rat) else 2) ∧
      slot a2.keypoints 0 =
        ((5 : Rat), (5 : Rat),
          if exKp1.occluded = "1" then (1 : Rat) else 2) :=
  c8_no_exclusivity 0 [exKp1] 0 [exBox, exBoxB] [exAnnot, exAnnotB] 2 rfl
    0 1 exBox exBoxB rfl rfl exKp1 (List.mem_cons_self _ _) (5, 5) 0 rfl
    rfl (by decide) rfl rfl

end CvatCoco
